import Mathlib

/-!
Shallow embedding of `src/solution.py` (class `SoundWaveFactory`).

Modelling conventions:
* numpy float64 arrays are modelled as `List ℚ` (for the pure-arithmetic
  operations: normalisation, wave-type conversion, the ADSR envelope) or as
  `List ℝ` (for the sine-wave pipeline, which uses the transcendental `sin`);
* int16 arrays (`astype(np.int16)`) are `List ℤ`, with the cast modelled as
  truncation toward zero followed by wrap-around modulo 2^16;
* a Python function that can raise is modelled with `Option`/`Except`;
  a `KeyError` on dictionary lookup is the `none` of `List.lookup`;
* `np.linspace(a, b, n)` is pointwise `a + (b - a) * i / (n - 1)`; for
  `n = 1` numpy returns `[a]`, which the model reproduces because division
  by zero is zero in Lean.
-/

/-- `SAMPLING_RATE = 44100` from `solution.py` line 7. -/
def SAMPLING_RATE : ℕ := 44100

/-- `DURATION_SECONDS = 5` from `solution.py` line 8. -/
def DURATION_SECONDS : ℕ := 5

/-- `SOUND_ARRAY_LEN = SAMPLING_RATE * DURATION_SECONDS` from `solution.py` line 9. -/
def SOUND_ARRAY_LEN : ℕ := SAMPLING_RATE * DURATION_SECONDS

/-- `MAX_AMPLITUDE = 2 ** 13` from `solution.py` line 10. -/
def MAX_AMPLITUDE : ℕ := 2 ^ 13

/-- The `NOTES` dictionary from `solution.py` lines 12-29, as an association
list; insertion order is kept and the keys are pairwise distinct, so
`List.lookup` agrees with the Python dict lookup. -/
def NOTES : List (String × ℚ) := [
  ("0", 0), ("e0", 20.60172), ("f0", 21.82676), ("f#0", 23.12465), ("g0", 24.49971),
  ("g#0", 25.95654), ("a0", 27.50000), ("a#0", 29.13524),
  ("b0", 30.86771), ("c0", 32.70320), ("c#0", 34.64783), ("d0", 36.70810), ("d#0", 38.89087),
  ("e1", 41.20344), ("f1", 43.65353), ("f#1", 46.24930), ("g1", 48.99943),
  ("g#1", 51.91309), ("a1", 55.00000), ("a#1", 58.27047),
  ("b1", 61.73541), ("c1", 65.40639), ("c#1", 69.29566), ("d1", 73.41619), ("d#1", 77.78175),
  ("e2", 82.40689), ("f2", 87.30706), ("f#2", 92.49861), ("g2", 97.99886),
  ("g#2", 103.8262), ("a2", 110.0000), ("a#2", 116.5409),
  ("b2", 123.4708), ("c2", 130.8128), ("c#2", 138.5913), ("d2", 146.8324), ("d#2", 155.5635),
  ("e3", 164.8138), ("f3", 174.6141), ("f#3", 184.9972), ("g3", 195.9977),
  ("g#3", 207.6523), ("a3", 220.0000), ("a#3", 233.0819),
  ("b3", 246.9417), ("c3", 261.6256), ("c#3", 277.1826), ("d3", 293.6648), ("d#3", 311.1270),
  ("e4", 329.6276), ("f4", 349.2282), ("f#4", 369.9944), ("g4", 391.9954),
  ("g#4", 415.3047), ("a4", 440.0000), ("a#4", 466.1638),
  ("b4", 493.8833), ("c4", 523.2511), ("c#4", 554.3653), ("d4", 587.3295), ("d#4", 622.2540),
  ("e5", 659.2551), ("f5", 698.4565), ("f#5", 739.9888), ("g5", 783.9909),
  ("g#5", 830.6094), ("a5", 880.0000), ("a#5", 932.3275),
  ("b5", 987.7666), ("c5", 1046.502), ("c#5", 1108.731), ("d5", 1174.659), ("d#5", 1244.508),
  ("e6", 1318.510), ("f6", 1396.913), ("f#6", 1479.978), ("g6", 1567.982),
  ("g#6", 1661.219), ("a6", 1760.000), ("a#6", 1864.655),
  ("b6", 1975.533), ("c6", 2093.005), ("c#6", 2217.461), ("d6", 2349.318), ("d#6", 2489.016),
  ("e7", 2637.020), ("f7", 2793.826), ("f#7", 2959.955), ("g7", 3135.963),
  ("g#7", 3322.438), ("a7", 3520.000), ("a#7", 3729.310),
  ("b7", 3951.066), ("c7", 4186.009), ("c#7", 4434.922), ("d7", 4698.636), ("d#7", 4978.032)]

/-- `np.linspace(a, b, num=n)`: `n` points uniformly spaced over the closed
interval `[a, b]`.  Entry `i` is `a + (b - a) * i / (n - 1)`; for `n = 1`
the Lean convention `x / 0 = 0` yields `[a]`, exactly numpy's behaviour. -/
def np_linspace {α : Type} [DivisionRing α] (a b : α) (n : ℕ) : List α :=
  List.ofFn fun i : Fin n => a + (b - a) * (i : ℕ) / ((n : α) - 1)

/-- Wrap-around of an integer into the int16 range `[-32768, 32768)`,
as numpy's C cast does for in-range and just-out-of-range values. -/
def wrap16 (z : ℤ) : ℤ := (z + 32768) % 65536 - 32768

open Classical in
/-- Truncation of a real toward zero, the rounding used by a C float-to-int
cast (`.astype(np.int16)` before the wrap-around). -/
noncomputable def truncToZero (x : ℝ) : ℤ := if 0 ≤ x then ⌊x⌋ else ⌈x⌉

/-- `.astype(np.int16)` applied to one float64 sample. -/
noncomputable def astype_int16 (x : ℝ) : ℤ := wrap16 (truncToZero x)

/-- `get_normed_sin(timeline, frequency)` from `solution.py` lines 34-45:
`MAX_AMPLITUDE * np.sin(2 * np.pi * frequency * timeline)`, elementwise. -/
noncomputable def get_normed_sin (timeline : List ℝ) (frequency : ℚ) : List ℝ :=
  timeline.map fun t => (MAX_AMPLITUDE : ℝ) * Real.sin (2 * Real.pi * (frequency : ℝ) * t)

/-- `get_soundwave(timeline, note)` from `solution.py` lines 47-58:
`get_normed_sin(timeline, NOTES[note])`; `none` models the `KeyError` when
`note` is not in the table. -/
noncomputable def get_soundwave (timeline : List ℝ) (note : String) : Option (List ℝ) :=
  (List.lookup note NOTES).map fun f => get_normed_sin timeline f

/-- `create_note(note, duration)` from `solution.py` lines 60-73:
`timeline = np.linspace(0, duration, num=SOUND_ARRAY_LEN)` followed by
`get_soundwave(timeline, note).astype(np.int16)`.  Note the sample count is
the class constant `SOUND_ARRAY_LEN`, not a function of `duration`. -/
noncomputable def create_note (note : String) (duration : ℚ) : Option (List ℤ) :=
  (get_soundwave (np_linspace 0 (duration : ℝ) SOUND_ARRAY_LEN) note).map
    (List.map astype_int16)

/-- `np.sign` on one sample: `-1`, `0` or `1`. -/
def pySign (q : ℚ) : ℚ := if q < 0 then -1 else if 0 < q then 1 else 0

/-- `convert_wave_type(wave, wave_type)` from `solution.py` lines 129-149.
`x = np.linspace(0, 1, len(wave))`; the `triangular` branch computes
`(2 * np.abs(2 * (x - np.floor(x + 0.5))) - 1) * MAX_AMPLITUDE` (a function
of `x` only, never reading `wave`'s samples), the `square` branch computes
`np.sign(wave) * MAX_AMPLITUDE`, and any other type raises `ValueError`. -/
def convert_wave_type (wave : List ℚ) (wave_type : String) : Except String (List ℚ) :=
  let x := np_linspace (0 : ℚ) 1 wave.length
  if wave_type = "triangular" then
    .ok (x.map fun t => (2 * |2 * (t - ((⌊t + 1/2⌋ : ℤ) : ℚ))| - 1) * (MAX_AMPLITUDE : ℚ))
  else if wave_type = "square" then
    .ok (wave.map fun s => pySign s * (MAX_AMPLITUDE : ℚ))
  else
    .error "Unsupported wave type. Choose 'triangular' or 'square'."

/-- `np.max(np.abs(wave))`: `none` models the `ValueError` numpy raises on an
empty array. -/
def npMaxAbs (w : List ℚ) : Option ℚ :=
  match w.map abs with
  | [] => none
  | x :: xs => some (xs.foldl max x)

/-- Python's built-in `min` over a list, `none` on the empty list
(where Python raises `ValueError`). -/
def pyMin (l : List ℕ) : Option ℕ :=
  match l with
  | [] => none
  | x :: xs => some (xs.foldl min x)

/-- The loop body of `normalize_sound_waves`: each wave becomes
`wave[:min_length] / np.max(np.abs(wave))`.  The divisor is the peak of the
FULL wave, computed before the truncation. -/
def normalizeEach (min_length : ℕ) : List (List ℚ) → Option (List (List ℚ))
  | [] => some []
  | w :: ws =>
    match npMaxAbs w with
    | none => none
    | some p => (normalizeEach min_length ws).map
        (fun rest => ((w.take min_length).map (fun s => s / p)) :: rest)

/-- `normalize_sound_waves(waves)` from `solution.py` lines 112-127:
`min_length = min(len(wave) for wave in waves)`, then each wave is truncated
to `min_length` and divided by its own full-length peak absolute amplitude. -/
def normalize_sound_waves (waves : List (List ℚ)) : Option (List (List ℚ)) :=
  match pyMin (waves.map List.length) with
  | none => none
  | some m => normalizeEach m waves

/-- `int(total_length * frac)` from `apply_adsr`: Python `int()` truncates
toward zero, which is the floor for the nonnegative products arising from
fractions in `[0, 1]` (the regime all theorems below restrict to). -/
def segLen (total : ℕ) (frac : ℚ) : ℕ := (⌊(total : ℚ) * frac⌋).toNat

/-- Python slice assignment `l[s : s + len(v)] = v` (with `v` known to fit):
the written region replaces `l[s], ..., l[s + len(v) - 1]`. -/
def setSlice (l : List ℚ) (s : ℕ) (v : List ℚ) : List ℚ :=
  l.take s ++ v ++ l.drop (s + v.length)

/-- `apply_adsr(wave, attack, decay, sustain, release)` from `solution.py`
lines 151-175.  The envelope starts as `np.zeros(total_length)`; then three
slice assignments write the attack ramp `linspace(0, 1, attack_length)`, the
decay ramp `linspace(1, sustain, decay_length)` and, counted from the END of
the array, the release ramp `linspace(sustain, 0, release_length)`.  Each
numpy slice assignment raises `ValueError` when the right-hand side's length
differs from the slice's length; in particular `envelope[-release_length:]`
with `release_length = 0` is `envelope[0:]`, the WHOLE array, so a nonempty
wave with `release = 0` broadcasts a length-0 ramp into a positive-length
slice and raises.  The result is `wave * envelope` elementwise. -/
def apply_adsr (wave : List ℚ) (attack decay sustain release : ℚ) :
    Except String (List ℚ) :=
  let total := wave.length
  let aL := segLen total attack
  let dL := segLen total decay
  let rL := segLen total release
  let relStart := if rL = 0 then 0 else total - rL
  if min aL total ≠ aL then
    .error "could not broadcast input array (attack)"
  else if min (aL + dL) total - min aL total ≠ dL then
    .error "could not broadcast input array (decay)"
  else if total - relStart ≠ rL then
    .error "could not broadcast input array (release)"
  else
    let env0 := List.replicate total (0 : ℚ)
    let env1 := setSlice env0 0 (np_linspace 0 1 aL)
    let env2 := setSlice env1 aL (np_linspace 1 sustain dL)
    let env3 := setSlice env2 relStart (np_linspace sustain 0 rL)
    .ok (List.zipWith (· * ·) wave env3)

/-- `np.sum(waves, axis=0)` in `combine_waves` for equal-length int16 waves:
elementwise sum (pairwise, with int16 wrap-around as numpy addition does). -/
def combineTwo (w1 w2 : List ℤ) : List ℤ :=
  List.zipWith (fun a b => wrap16 (a + b)) w1 w2

/-- The character class of the regex letter `[a-g]`. -/
def isNoteLetter (c : Char) : Bool := 'a' ≤ c && c ≤ 'g'

/-- The regex class `\s` restricted to ASCII (all melody inputs are ASCII). -/
def isPySpace (c : Char) : Bool :=
  c = ' ' || c = '\t' || c = '\n' || c = '\r' || c = '\x0b' || c = '\x0c'

/-- Matching the first regex group `([a-g][#]?\d)` at the current position:
a letter `a`-`g`, an optional `'#'` (which, when present, must be followed by
a digit, since backtracking over `[#]?` cannot succeed otherwise), and a
digit `0`-`9`.  Returns the matched characters and the rest of the input. -/
def matchNoteTok (cs : List Char) : Option (List Char × List Char) :=
  match cs with
  | c1 :: c2 :: c3 :: rest =>
    if isNoteLetter c1 then
      if c2 = '#' then
        if c3.isDigit then some ([c1, c2, c3], rest) else none
      else if c2.isDigit then some ([c1, c2], c3 :: rest) else none
    else none
  | [c1, c2] =>
    if isNoteLetter c1 && c2.isDigit then some ([c1, c2], []) else none
  | _ => none

/-- Matching the optional second regex group `(\s\d*\.?\d*s)?` at the current
position: one whitespace character, a maximal digit run, optionally a dot
followed by a second maximal digit run, then the literal `'s'`.  (Regex
backtracking over the greedy `\d*`/`\.?` cannot produce any other match:
shortening a maximal digit run leaves a digit where `'s'` is required.)
Returns the matched characters (whitespace and the trailing `'s'` included)
and the rest of the input. -/
def matchDurTok (cs : List Char) : Option (List Char × List Char) :=
  match cs with
  | [] => none
  | c :: rest =>
    if isPySpace c then
      let p1 := rest.span Char.isDigit
      match p1.2 with
      | [] => none
      | b :: r2 =>
        if b = '.' then
          let p2 := r2.span Char.isDigit
          match p2.2 with
          | [] => none
          | b2 :: r4 => if b2 = 's' then some (c :: (p1.1 ++ '.' :: (p2.1 ++ ['s'])), r4) else none
        else if b = 's' then some (c :: (p1.1 ++ ['s']), r2) else none
    else none

/-- One attempt of `re.findall(r'([a-g][#]?\d)(\s\d*\.?\d*s)?', ...)` at the
current position: the note group must match; the duration group is optional
and yields `""` when absent (as `re.findall` reports unmatched groups). -/
def tryMatch (cs : List Char) : Option (String × String × List Char) :=
  match matchNoteTok cs with
  | none => none
  | some (note, r) =>
    match matchDurTok r with
    | some (dur, r2) => some (⟨note⟩, ⟨dur⟩, r2)
    | none => some (⟨note⟩, "", r)

/-- The `re.findall` scan, fuelled for structural recursion: try a match at
the current position; on success emit the group pair and continue after the
match, on failure skip one character.  Every step consumes at least one
character and one unit of fuel, so fuel equal to the input length never runs
out and `findall` below is the exact unbounded scan. -/
def findallFuel : ℕ → List Char → List (String × String)
  | 0, _ => []
  | _ + 1, [] => []
  | fuel + 1, c :: rest =>
    match tryMatch (c :: rest) with
    | some (n, d, r) => (n, d) :: findallFuel fuel r
    | none => findallFuel fuel rest

/-- `re.findall(r'([a-g][#]?\d)(\s\d*\.?\d*s)?', melody_str)` from
`solution.py` line 199. -/
def findall (cs : List Char) : List (String × String) := findallFuel cs.length cs

/-- Value of a digit run as a natural number. -/
def digitsValN (l : List Char) : ℕ := l.foldl (fun n c => 10 * n + (c.toNat - 48)) 0

/-- Python `float()` on the strings this module feeds it (`duration[:-1]`,
i.e. a whitespace character followed by `\d*\.?\d*`): optional leading
whitespace, an integer part, an optional dot and fractional part; `none`
models the `ValueError` raised when no digit at all is present. -/
def pyFloat (cs : List Char) : Option ℚ :=
  let cs1 := cs.dropWhile isPySpace
  let p1 := cs1.span Char.isDigit
  match p1.2 with
  | [] => if p1.1.isEmpty then none else some (digitsValN p1.1 : ℚ)
  | '.' :: r2 =>
    let p2 := r2.span Char.isDigit
    if p2.2.isEmpty then
      if p1.1.isEmpty && p2.1.isEmpty then none
      else some ((digitsValN p1.1 : ℚ) + (digitsValN p2.1 : ℚ) / 10 ^ p2.1.length)
    else none
  | _ => none

/-- `duration = float(duration[:-1]) if duration else DURATION_SECONDS` from
`solution.py` line 202; `none` models the `ValueError` of `float()` on a
duration string holding no digits. -/
def resolveDuration (d : String) : Option ℚ :=
  if d = "" then some (DURATION_SECONDS : ℚ) else pyFloat d.data.dropLast

/-- The parsing stage of `generate_melody` (`solution.py` lines 199-202),
the spec's `parseMelody`, over the raw `re.findall` pairs: each pair is
resolved to a `(note, duration)` pair, the duration defaulting to
`DURATION_SECONDS` (5) when the group is empty. -/
def parsePairs : List (String × String) → Option (List (String × ℚ))
  | [] => some []
  | p :: ps =>
    match resolveDuration p.2 with
    | none => none
    | some q => (parsePairs ps).map fun rest => (p.1, q) :: rest

/-- The spec's `parseMelody`: the regex scan followed by the per-pair
duration resolution of `generate_melody`. -/
def parseMelody (s : String) : Option (List (String × ℚ)) := parsePairs (findall s.data)

/-- The accumulation loop of `generate_melody`: `combined_wave` starts as
`None`; each parsed pair is resolved to a duration (`ValueError` when the
duration string holds no digits), synthesised with `create_note` (`KeyError`
when the note is missing from `NOTES`) and added elementwise. -/
noncomputable def renderLoop :
    Option (List ℤ) → List (String × String) → Except String (Option (List ℤ))
  | acc, [] => .ok acc
  | acc, p :: ps =>
    match resolveDuration p.2 with
    | none => .error "could not convert string to float"
    | some d =>
      match create_note p.1 d with
      | none => .error "KeyError"
      | some wave =>
        renderLoop (some (match acc with
          | none => wave
          | some c => combineTwo c wave)) ps

/-- `generate_melody(melody_str)` from `solution.py` lines 189-205: run the
regex scan, then the accumulation loop.  When no pair matches, the loop body
never runs and the function returns `combined_wave = None` — it does not
raise. -/
noncomputable def generate_melody (s : String) : Except String (Option (List ℤ)) :=
  renderLoop none (findall s.data)

/-- Note-token shape produced by the regex group `([a-g][#]?\d)`:
two characters (letter, digit) or three (letter, `'#'`, digit). -/
def noteShapeB (l : List Char) : Bool :=
  match l with
  | [c1, c2] => isNoteLetter c1 && c2.isDigit
  | [c1, c2, c3] => isNoteLetter c1 && (c2 = '#') && c3.isDigit
  | _ => false

/-- Body of a duration token after its leading whitespace: digits then `'s'`,
or digits, a dot, digits and `'s'`. -/
def durBodyB (l : List Char) : Bool :=
  let p1 := l.span Char.isDigit
  match p1.2 with
  | [] => false
  | b :: r2 =>
    if b = '.' then (r2.span Char.isDigit).2 == ['s']
    else b == 's' && r2.isEmpty

/-- Duration-token shape produced by the regex group `(\s\d*\.?\d*s)`. -/
def durShapeB (l : List Char) : Bool :=
  match l with
  | [] => false
  | c :: rest => isPySpace c && durBodyB rest

/-- The spec's `frequencyOf`: dictionary lookup in the `NOTES` table,
`none` for the `KeyError`/`UnknownNoteError` case. -/
def frequencyOf (name : String) : Option ℚ := List.lookup name NOTES

/-- The twelve letter-plus-optional-sharp prefixes of the `NOTES` keys
(the rest symbol `"0"` is not one of them). -/
def noteBases : List String :=
  ["a", "a#", "b", "c", "c#", "d", "d#", "e", "f", "f#", "g", "g#"]

/-- The table key of letter form `b` at octave `k`, e.g. `noteKey "a#" 4 = "a#4"`. -/
def noteKey (b : String) (k : ℕ) : String := b ++ toString k

/-- The concrete wave used to witness `create_note`: the `"a4"` pipeline at
the requested duration 2. -/
noncomputable def c1Wave : List ℤ :=
  (get_normed_sin (np_linspace 0 (((2 : ℚ) : ℝ)) SOUND_ARRAY_LEN) 440.0000).map astype_int16


/-! ## Theorems -/

/-- Length of a linspace. -/
theorem np_linspace_length {α : Type} [DivisionRing α] (a b : α) (n : ℕ) :
    (np_linspace a b n).length = n := by
  simp [np_linspace]

/-- Length of the sine pipeline. -/
theorem get_normed_sin_length (tl : List ℝ) (f : ℚ) :
    (get_normed_sin tl f).length = tl.length := by
  simp [get_normed_sin]

/-- C1: for every note name present in the note table and every requested
duration, `create_note` returns a waveform of length exactly
`SAMPLING_RATE * DURATION_SECONDS = 44100 * 5 = 220500` samples, independent
of the requested duration argument. -/
theorem create_note_length (note : String) (duration : ℚ) (w : List ℤ)
    (h : create_note note duration = some w) :
    w.length = SAMPLING_RATE * DURATION_SECONDS ∧ w.length = 220500 := by
  unfold create_note at h
  obtain ⟨l, hsw, rfl⟩ := Option.map_eq_some'.mp h
  unfold get_soundwave at hsw
  obtain ⟨f, hf, rfl⟩ := Option.map_eq_some'.mp hsw
  constructor
  · simp [get_normed_sin_length, np_linspace_length, SOUND_ARRAY_LEN]
  · simp [get_normed_sin_length, np_linspace_length, SOUND_ARRAY_LEN,
      SAMPLING_RATE, DURATION_SECONDS]

set_option maxRecDepth 8000 in
/-- Witness for C1 at note `"a4"` and requested duration 2. -/
theorem create_note_length_witness :
    create_note "a4" 2 = some c1Wave ∧
      c1Wave.length = SAMPLING_RATE * DURATION_SECONDS ∧ c1Wave.length = 220500 := by
  have hl : List.lookup "a4" NOTES = some 440.0000 := rfl
  have h : create_note "a4" 2 = some c1Wave := by
    simp [create_note, get_soundwave, hl, c1Wave]
  exact ⟨h, (create_note_length "a4" 2 c1Wave h).1, (create_note_length "a4" 2 c1Wave h).2⟩

/-- C2 counterexample: on the melody string `"xyz"`, which matches no notes,
`generate_melody` does NOT fail: it returns Python's `None` (here
`Except.ok none`) instead of raising any error. -/
theorem generate_melody_no_match_counterexample : generate_melody "xyz" = .ok none := by
  have h : findall "xyz".data = [] := by decide
  simp [generate_melody, h, renderLoop]

/-- C2 (amended): when the regex scan matches no notes, `generate_melody`
returns `None` (no waveform) and raises nothing; no `EmptyMelodyError`
exists in the code. -/
theorem generate_melody_no_match (s : String) (h : findall s.data = []) :
    generate_melody s = .ok none := by
  simp [generate_melody, h, renderLoop]

/-- Witness for the amended C2 at the concrete input `"xyz"`. -/
theorem generate_melody_no_match_witness :
    findall "xyz".data = [] ∧ generate_melody "xyz" = .ok none :=
  ⟨by decide, generate_melody_no_match "xyz" (by decide)⟩

/-- C6: the `triangular` branch of `convert_wave_type` depends only on the
input wave's length, never on its sample values: equal-length inputs give
identical outputs, and the output is a ramp of the same length. -/
theorem convert_triangular_length_only :
    (∀ w1 w2 : List ℚ, w1.length = w2.length →
      convert_wave_type w1 "triangular" = convert_wave_type w2 "triangular") ∧
    (∀ w : List ℚ, ∃ out, convert_wave_type w "triangular" = .ok out ∧
      out.length = w.length) := by
  constructor
  · intro w1 w2 h
    simp [convert_wave_type, h]
  · intro w
    refine ⟨(np_linspace (0 : ℚ) 1 w.length).map
        (fun t => (2 * |2 * (t - ((⌊t + 1/2⌋ : ℤ) : ℚ))| - 1) * (MAX_AMPLITUDE : ℚ)), ?_, ?_⟩
    · simp [convert_wave_type]
    · simp [np_linspace]

/-- Witness for C6: two different waves of equal length 2 convert to the
same triangular output. -/
theorem convert_triangular_length_only_witness :
    convert_wave_type [1, 2] "triangular" = convert_wave_type [3, 4] "triangular" :=
  convert_triangular_length_only.1 [1, 2] [3, 4] rfl

/-- C7: `convert_wave_type` fails (with the `ValueError` standing for the
spec's `UnsupportedWaveTypeError`) exactly on shapes other than
`"triangular"` and `"square"`, and succeeds on those two. -/
theorem convert_unsupported_error :
    (∀ (w : List ℚ) (t : String), t ≠ "triangular" → t ≠ "square" →
      convert_wave_type w t =
        .error "Unsupported wave type. Choose 'triangular' or 'square'.") ∧
    (∀ w : List ℚ, ∃ o, convert_wave_type w "triangular" = .ok o) ∧
    (∀ w : List ℚ, ∃ o, convert_wave_type w "square" = .ok o) := by
  refine ⟨?_, ?_, ?_⟩
  · intro w t h1 h2
    simp only [convert_wave_type, if_neg h1, if_neg h2]
  · intro w
    refine ⟨(np_linspace (0 : ℚ) 1 w.length).map
        (fun t => (2 * |2 * (t - ((⌊t + 1/2⌋ : ℤ) : ℚ))| - 1) * (MAX_AMPLITUDE : ℚ)), ?_⟩
    simp [convert_wave_type]
  · intro w
    refine ⟨w.map (fun s => pySign s * (MAX_AMPLITUDE : ℚ)), ?_⟩
    simp [convert_wave_type]

/-- Witness for C7 at shape `"bogus"` on the wave `[1]`. -/
theorem convert_unsupported_error_witness :
    convert_wave_type [1] "bogus" =
      .error "Unsupported wave type. Choose 'triangular' or 'square'." :=
  convert_unsupported_error.1 [1] "bogus" (by decide) (by decide)

/-- Every note token produced by `matchNoteTok` has the
letter/optional-sharp/digit shape. -/
theorem matchNoteTok_shape {cs n r} (h : matchNoteTok cs = some (n, r)) :
    noteShapeB n = true := by
  match cs with
  | [] => simp [matchNoteTok] at h
  | [c1] => simp [matchNoteTok] at h
  | [c1, c2] =>
    simp only [matchNoteTok] at h
    split_ifs at h with h1
    · obtain ⟨rfl, rfl⟩ : [c1, c2] = n ∧ r = [] := by
        simpa using h
      simp only [Bool.and_eq_true] at h1
      simp [noteShapeB, h1.1, h1.2]
  | c1 :: c2 :: c3 :: rest =>
    simp only [matchNoteTok] at h
    split_ifs at h with h1 h2 h3 h4
    · obtain ⟨rfl, rfl⟩ : [c1, c2, c3] = n ∧ rest = r := by
        simpa using h
      simp [noteShapeB, h1, h2, h3]
    · obtain ⟨rfl, rfl⟩ : [c1, c2] = n ∧ c3 :: rest = r := by
        simpa using h
      simp [noteShapeB, h1, h4]

/-- The prefix returned by `takeWhile` is all-satisfying. -/
theorem takeWhile_all {p : Char → Bool} {l : List Char} :
    ∀ x ∈ l.takeWhile p, p x = true :=
  fun _ hx => List.mem_takeWhile_imp hx

/-- `durBodyB` holds for a digit run followed by `'s'`. -/
theorem durBodyB_digits_s {d1 : List Char} (h1 : ∀ x ∈ d1, Char.isDigit x = true) :
    durBodyB (d1 ++ ['s']) = true := by
  have hs : Char.isDigit 's' = false := by decide
  simp only [durBodyB, List.span_eq_take_drop]
  rw [List.dropWhile_append_of_pos h1, List.dropWhile_cons_of_neg (by simp [hs])]
  simp

/-- `durBodyB` holds for digits, a dot, digits and `'s'`. -/
theorem durBodyB_digits_dot {d1 d2 : List Char}
    (h1 : ∀ x ∈ d1, Char.isDigit x = true) (h2 : ∀ x ∈ d2, Char.isDigit x = true) :
    durBodyB (d1 ++ '.' :: (d2 ++ ['s'])) = true := by
  have hdot : Char.isDigit '.' = false := by decide
  have hs : Char.isDigit 's' = false := by decide
  simp only [durBodyB, List.span_eq_take_drop]
  rw [List.dropWhile_append_of_pos h1, List.dropWhile_cons_of_neg (by simp [hdot])]
  simp only [if_pos rfl, List.span_eq_take_drop]
  rw [List.dropWhile_append_of_pos h2, List.dropWhile_cons_of_neg (by simp [hs])]
  simp

/-- Every duration token produced by `matchDurTok` has the
whitespace/digits/optional-dot/`'s'` shape. -/
theorem matchDurTok_shape {cs d r} (h : matchDurTok cs = some (d, r)) :
    durShapeB d = true := by
  match cs with
  | [] => simp [matchDurTok] at h
  | c :: rest =>
    simp only [matchDurTok, List.span_eq_take_drop] at h
    split_ifs at h with hws
    rcases hsp : List.dropWhile Char.isDigit rest with _ | ⟨b, r2⟩ <;> rw [hsp] at h
    · simp at h
    · simp only at h
      split_ifs at h with hdot hs
      · rcases hsp2 : List.dropWhile Char.isDigit r2 with _ | ⟨b2, r4⟩ <;> rw [hsp2] at h
        · simp at h
        · simp only at h
          split_ifs at h with hs2
          obtain ⟨rfl, rfl⟩ :
              c :: (List.takeWhile Char.isDigit rest ++
                '.' :: (List.takeWhile Char.isDigit r2 ++ ['s'])) = d ∧ r4 = r := by
            simpa using h
          subst hdot
          simp [durShapeB, hws, durBodyB_digits_dot takeWhile_all takeWhile_all]
      · obtain ⟨rfl, rfl⟩ : c :: (List.takeWhile Char.isDigit rest ++ ['s']) = d ∧ r2 = r := by
          simpa using h
        subst hs
        simp [durShapeB, hws, durBodyB_digits_s takeWhile_all]

/-- Every pair emitted by one match attempt has well-shaped groups. -/
theorem tryMatch_shape {cs : List Char} {n d : String} {r : List Char}
    (h : tryMatch cs = some (n, d, r)) :
    noteShapeB n.data = true ∧ (d = "" ∨ durShapeB d.data = true) := by
  unfold tryMatch at h
  rcases hm : matchNoteTok cs with _ | ⟨note, r1⟩ <;> rw [hm] at h <;> simp only at h
  · simp at h
  · rcases hd : matchDurTok r1 with _ | ⟨dur, r2⟩ <;> rw [hd] at h <;> simp only at h
    · obtain ⟨rfl, rfl, rfl⟩ : String.mk note = n ∧ "" = d ∧ r1 = r := by simpa using h
      exact ⟨matchNoteTok_shape hm, Or.inl rfl⟩
    · obtain ⟨rfl, rfl, rfl⟩ : String.mk note = n ∧ String.mk dur = d ∧ r2 = r := by
        simpa using h
      exact ⟨matchNoteTok_shape hm, Or.inr (matchDurTok_shape hd)⟩

/-- Soundness of the fuelled scan: every emitted pair has a well-shaped note
group and an empty or well-shaped duration group. -/
theorem findallFuel_sound :
    ∀ (fuel : ℕ) (cs : List Char) (p : String × String), p ∈ findallFuel fuel cs →
      noteShapeB p.1.data = true ∧ (p.2 = "" ∨ durShapeB p.2.data = true) := by
  intro fuel
  induction fuel with
  | zero => intro cs p hp; simp [findallFuel] at hp
  | succ m ih =>
    intro cs p hp
    match cs with
    | [] => simp [findallFuel] at hp
    | c :: rest =>
      rw [findallFuel] at hp
      rcases ht : tryMatch (c :: rest) with _ | ⟨n, d, r⟩ <;> rw [ht] at hp
      · exact ih rest p hp
      · rcases List.mem_cons.mp hp with rfl | hp2
        · exact tryMatch_shape ht
        · exact ih r p hp2

/-- C3 (amended): every pair the melody scan produces consists of a note
token of the form letter `a`-`g`, optional `'#'`, octave digit `0`-`9` (the
regex uses `\d`, not `0`-`7`), and a duration group that is either absent
(defaulting to 5 seconds) or one whitespace character, a decimal number and
`'s'`; pairs appear in match order and unmatched characters are skipped;
in particular `parseMelody "a4 2s c#4" = [("a4", 2.0), ("c#4", 5.0)]`. -/
theorem parseMelody_shape_and_example :
    (∀ (s : String) (p : String × String), p ∈ findall s.data →
      noteShapeB p.1.data = true ∧ (p.2 = "" ∨ durShapeB p.2.data = true)) ∧
    parseMelody "a4 2s c#4" = some [("a4", 2), ("c#4", 5)] :=
  ⟨fun s p hp => findallFuel_sound s.data.length s.data p hp, by decide⟩

/-- C3 counterexample: the token `"a8"`, whose octave digit is outside
`0`-`7`, is nevertheless matched (with the default duration 5), refuting
"accepts exactly ... an octave digit 0-7". -/
theorem parseMelody_octave_counterexample : parseMelody "a8" = some [("a8", 5)] := by
  decide

/-- Witness for the amended C3 on the pair produced from `"a4 2s c#4"`. -/
theorem parseMelody_shape_and_example_witness :
    (("a4", " 2s") ∈ findall "a4 2s c#4".data) ∧
      (noteShapeB "a4".data = true ∧
        ((" 2s" : String) = "" ∨ durShapeB " 2s".data = true)) :=
  ⟨by decide, parseMelody_shape_and_example.1 "a4 2s c#4" ("a4", " 2s") (by decide)⟩

/-- A slice write whose data fits preserves the length. -/
theorem setSlice_length {l v : List ℚ} {s : ℕ} (h : s + v.length ≤ l.length) :
    (setSlice l s v).length = l.length := by
  simp only [setSlice, List.length_append, List.length_take, List.length_drop]
  omega

/-- Indices before the written region are untouched by a slice write. -/
theorem setSlice_getElem_left {l v : List ℚ} {s i : ℕ} (hi : i < s) (hs : s ≤ l.length) :
    (setSlice l s v)[i]? = l[i]? := by
  unfold setSlice
  rw [List.append_assoc, List.getElem?_append_left (by simp only [List.length_take]; omega),
    List.getElem?_take_of_lt hi]

/-- Indices at or beyond the end of the written region are untouched by a
slice write. -/
theorem setSlice_getElem_right {l v : List ℚ} {s i : ℕ} (hi : s + v.length ≤ i)
    (hs : s ≤ l.length) :
    (setSlice l s v)[i]? = l[i]? := by
  unfold setSlice
  rw [List.append_assoc, List.getElem?_append_right (by simp only [List.length_take]; omega),
    List.getElem?_append_right (by simp only [List.length_take]; omega),
    List.getElem?_drop]
  congr 1
  simp only [List.length_take]
  omega

/-- `segLen` of the zero fraction is zero. -/
theorem segLen_zero (t : ℕ) : segLen t 0 = 0 := by
  simp [segLen]

/-- A fraction in `[0, 1]` yields a segment no longer than the wave. -/
theorem segLen_le {t : ℕ} {f : ℚ} (h1 : f ≤ 1) : segLen t f ≤ t := by
  unfold segLen
  have hf : ⌊(t : ℚ) * f⌋ ≤ (t : ℤ) := by
    calc ⌊(t : ℚ) * f⌋ ≤ ⌊(t : ℚ)⌋ := by
          apply Int.floor_le_floor
          calc (t : ℚ) * f ≤ (t : ℚ) * 1 :=
                mul_le_mul_of_nonneg_left h1 (Nat.cast_nonneg t)
            _ = (t : ℚ) := mul_one _
      _ = (t : ℤ) := Int.floor_natCast t
  exact Int.toNat_le.mpr hf

/-- Two segments whose fractions sum to at most 1 fit together in the wave. -/
theorem segLen_add_le {t : ℕ} {a d : ℚ} (ha : 0 ≤ a) (hd : 0 ≤ d) (had : a + d ≤ 1) :
    segLen t a + segLen t d ≤ t := by
  unfold segLen
  have ha' : (0 : ℤ) ≤ ⌊(t : ℚ) * a⌋ := Int.floor_nonneg.mpr (by positivity)
  have hd' : (0 : ℤ) ≤ ⌊(t : ℚ) * d⌋ := Int.floor_nonneg.mpr (by positivity)
  have hsum : ⌊(t : ℚ) * a⌋ + ⌊(t : ℚ) * d⌋ ≤ (t : ℤ) := by
    have h1 : ((⌊(t : ℚ) * a⌋ + ⌊(t : ℚ) * d⌋ : ℤ) : ℚ) ≤ (t : ℚ) := by
      push_cast
      have hfa := Int.floor_le ((t : ℚ) * a)
      have hfd := Int.floor_le ((t : ℚ) * d)
      nlinarith [Nat.cast_nonneg (α := ℚ) t]
    exact_mod_cast h1
  omega

/-- C5: with fractions in `[0, 1]`, `attack + decay + release < 1` and at
least one sample in the release window, `apply_adsr` succeeds and every
sample from the end of the decay ramp up to the start of the release window
is exactly 0 — the silent-gap quirk. -/
theorem apply_adsr_silent_gap (wave : List ℚ) (attack decay sustain release : ℚ)
    (ha : 0 ≤ attack) (hd : 0 ≤ decay) (hr : 0 ≤ release)
    (hsum : attack + decay + release < 1)
    (hrel : 1 ≤ segLen wave.length release) :
    ∃ out, apply_adsr wave attack decay sustain release = .ok out ∧
      out.length = wave.length ∧
      ∀ i, segLen wave.length attack + segLen wave.length decay ≤ i →
        i < wave.length - segLen wave.length release → out[i]? = some 0 := by
  have haL : segLen wave.length attack ≤ wave.length := segLen_le (by linarith)
  have hadL : segLen wave.length attack + segLen wave.length decay ≤ wave.length :=
    segLen_add_le ha hd (by linarith)
  have hrL : segLen wave.length release ≤ wave.length := segLen_le (by linarith)
  have hrne : ¬ (segLen wave.length release = 0) := by omega
  simp only [apply_adsr, if_neg hrne]
  rw [if_neg (by omega), if_neg (by omega), if_neg (by omega)]
  have hv1 : (np_linspace (0 : ℚ) 1 (segLen wave.length attack)).length =
      segLen wave.length attack := np_linspace_length _ _ _
  have hv2 : (np_linspace (1 : ℚ) sustain (segLen wave.length decay)).length =
      segLen wave.length decay := np_linspace_length _ _ _
  have hv3 : (np_linspace sustain (0 : ℚ) (segLen wave.length release)).length =
      segLen wave.length release := np_linspace_length _ _ _
  have he0 : (List.replicate wave.length (0 : ℚ)).length = wave.length :=
    List.length_replicate _ _
  have he1 : (setSlice (List.replicate wave.length (0 : ℚ)) 0
      (np_linspace (0 : ℚ) 1 (segLen wave.length attack))).length = wave.length := by
    rw [setSlice_length] <;> omega
  have he2 : (setSlice (setSlice (List.replicate wave.length (0 : ℚ)) 0
      (np_linspace (0 : ℚ) 1 (segLen wave.length attack))) (segLen wave.length attack)
      (np_linspace (1 : ℚ) sustain (segLen wave.length decay))).length = wave.length := by
    rw [setSlice_length] <;> omega
  have he3 : (setSlice (setSlice (setSlice (List.replicate wave.length (0 : ℚ)) 0
      (np_linspace (0 : ℚ) 1 (segLen wave.length attack))) (segLen wave.length attack)
      (np_linspace (1 : ℚ) sustain (segLen wave.length decay)))
      (wave.length - segLen wave.length release)
      (np_linspace sustain (0 : ℚ) (segLen wave.length release))).length = wave.length := by
    rw [setSlice_length] <;> omega
  refine ⟨_, rfl, ?_, ?_⟩
  · rw [List.length_zipWith, he3, min_self]
  · intro i hgap1 hgap2
    have hi : i < wave.length := by omega
    have henv : (setSlice (setSlice (setSlice (List.replicate wave.length (0 : ℚ)) 0
        (np_linspace (0 : ℚ) 1 (segLen wave.length attack))) (segLen wave.length attack)
        (np_linspace (1 : ℚ) sustain (segLen wave.length decay)))
        (wave.length - segLen wave.length release)
        (np_linspace sustain (0 : ℚ) (segLen wave.length release)))[i]? = some 0 := by
      rw [setSlice_getElem_left (by omega) (by omega),
        setSlice_getElem_right (by omega) (by omega),
        setSlice_getElem_right (by omega) (by omega)]
      exact List.getElem?_replicate_of_lt hi
    rw [List.getElem?_zipWith', henv, List.getElem?_eq_getElem hi]
    simp

/-- Witness for C5 on a constant wave of ten ones with
`attack = decay = release = 1/10` and `sustain = 7/10`. -/
theorem apply_adsr_silent_gap_witness :
    (0 : ℚ) ≤ 1/10 ∧ (1/10 : ℚ) + 1/10 + 1/10 < 1 ∧
      1 ≤ segLen (List.length [(1 : ℚ), 1, 1, 1, 1, 1, 1, 1, 1, 1]) (1/10) ∧
      ∃ out, apply_adsr [(1 : ℚ), 1, 1, 1, 1, 1, 1, 1, 1, 1] (1/10) (1/10) (7/10) (1/10) =
          .ok out ∧
        out.length = List.length [(1 : ℚ), 1, 1, 1, 1, 1, 1, 1, 1, 1] ∧
        ∀ i, segLen (List.length [(1 : ℚ), 1, 1, 1, 1, 1, 1, 1, 1, 1]) (1/10) +
            segLen (List.length [(1 : ℚ), 1, 1, 1, 1, 1, 1, 1, 1, 1]) (1/10) ≤ i →
          i < List.length [(1 : ℚ), 1, 1, 1, 1, 1, 1, 1, 1, 1] -
            segLen (List.length [(1 : ℚ), 1, 1, 1, 1, 1, 1, 1, 1, 1]) (1/10) →
          out[i]? = some 0 :=
  ⟨by norm_num, by norm_num,
    by norm_num [segLen],
    apply_adsr_silent_gap [(1 : ℚ), 1, 1, 1, 1, 1, 1, 1, 1, 1] (1/10) (1/10) (7/10) (1/10)
      (by norm_num) (by norm_num) (by norm_num) (by norm_num) (by norm_num [segLen])⟩

/-- C9: on every nonempty wave, `release = 0` (a value inside the documented
fraction range) makes `apply_adsr` raise, because `envelope[-0:]` is the
whole array and receives a length-0 `linspace`; `attack = 0` and `decay = 0`
do not cause this failure. -/
theorem apply_adsr_release_zero :
    (∀ (wave : List ℚ) (attack decay sustain : ℚ), wave ≠ [] → 0 ≤ attack → 0 ≤ decay →
      ∃ msg, apply_adsr wave attack decay sustain 0 = .error msg) ∧
    (∀ (wave : List ℚ) (sustain release : ℚ), 0 ≤ release → release ≤ 1 →
      1 ≤ segLen wave.length release →
      ∃ out, apply_adsr wave 0 0 sustain release = .ok out) := by
  constructor
  · intro wave attack decay sustain hne ha hd
    have ht : wave.length ≠ 0 := by
      simpa using List.length_pos.mpr hne |>.ne'
    simp only [apply_adsr, segLen_zero, if_pos rfl]
    split_ifs with c1 c2 c3
    · exact ⟨_, rfl⟩
    · exact ⟨_, rfl⟩
    · exact ⟨_, rfl⟩
    · omega
  · intro wave sustain release hr hr1 hrel
    have hrne : ¬ (segLen wave.length release = 0) := by omega
    have hrL : segLen wave.length release ≤ wave.length := segLen_le hr1
    simp only [apply_adsr, segLen_zero, if_neg hrne]
    rw [if_neg (by omega), if_neg (by omega), if_neg (by omega)]
    exact ⟨_, rfl⟩

/-- Witness for C9 on the one-sample wave `[1]`: release 0 raises, while
zero attack and decay with release 1 succeed. -/
theorem apply_adsr_release_zero_witness :
    ([(1 : ℚ)] ≠ []) ∧
      (∃ msg, apply_adsr [(1 : ℚ)] (1/10) (1/10) (7/10) 0 = .error msg) ∧
      (∃ out, apply_adsr [(1 : ℚ)] 0 0 (7/10) 1 = .ok out) :=
  ⟨by simp,
    apply_adsr_release_zero.1 [(1 : ℚ)] (1/10) (1/10) (7/10) (by simp) (by norm_num)
      (by norm_num),
    apply_adsr_release_zero.2 [(1 : ℚ)] (7/10) 1 (by norm_num) (by norm_num)
      (by norm_num [segLen])⟩

/-- The initial value bounds a `max` fold from below. -/
theorem le_foldl_max (l : List ℚ) (a : ℚ) : a ≤ l.foldl max a := by
  induction l generalizing a with
  | nil => simp
  | cons x xs ih => exact le_trans (le_max_left a x) (ih (max a x))

/-- Every member bounds a `max` fold from below. -/
theorem mem_le_foldl_max (l : List ℚ) (a : ℚ) : ∀ x ∈ l, x ≤ l.foldl max a := by
  induction l generalizing a with
  | nil => simp
  | cons y ys ih =>
    intro x hx
    rcases List.mem_cons.mp hx with rfl | h
    · exact le_trans (le_max_right a x) (le_foldl_max ys _)
    · exact ih _ x h

/-- A `max` fold is attained: it is the initial value or a member. -/
theorem foldl_max_mem (l : List ℚ) (a : ℚ) : l.foldl max a = a ∨ l.foldl max a ∈ l := by
  induction l generalizing a with
  | nil => simp
  | cons y ys ih =>
    rcases ih (max a y) with h | h
    · rcases le_total a y with hay | hya
      · right
        rw [List.foldl_cons, h, max_eq_right hay]
        exact List.mem_cons_self y ys
      · left
        rw [List.foldl_cons, h, max_eq_left hya]
    · right
      exact List.mem_cons_of_mem y h

/-- `np.max(np.abs(w))` on a nonempty wave: its value bounds every `|x|`
and is itself some `|x|` of the wave or the head's absolute value. -/
theorem npMaxAbs_spec {w : List ℚ} (hne : w ≠ []) :
    ∃ p, npMaxAbs w = some p ∧ (∀ x ∈ w, |x| ≤ p) ∧ p ∈ w.map abs := by
  match w, hne with
  | x :: xs, _ =>
    refine ⟨(xs.map abs).foldl max |x|, by simp [npMaxAbs], ?_, ?_⟩
    · intro y hy
      rcases List.mem_cons.mp hy with rfl | h
      · exact le_foldl_max _ _
      · exact mem_le_foldl_max _ _ _ (List.mem_map_of_mem abs h)
    · rcases foldl_max_mem (xs.map abs) |x| with h | h
      · rw [List.map_cons, h]
        exact List.mem_cons_self _ _
      · exact List.mem_cons_of_mem _ h

/-- The peak of a wave with a nonzero sample is positive. -/
theorem npMaxAbs_pos {w : List ℚ} {p : ℚ} (_hp : npMaxAbs w = some p)
    (hb : ∀ x ∈ w, |x| ≤ p) (hx : ∃ x ∈ w, x ≠ 0) : 0 < p := by
  obtain ⟨x, hxw, hxne⟩ := hx
  exact lt_of_lt_of_le (abs_pos.mpr hxne) (hb x hxw)

/-- A `min` fold is bounded by its initial value. -/
theorem foldl_min_le_init (l : List ℕ) (a : ℕ) : l.foldl min a ≤ a := by
  induction l generalizing a with
  | nil => simp
  | cons x xs ih => exact le_trans (ih (min a x)) (min_le_left a x)

/-- A `min` fold is bounded by every member. -/
theorem foldl_min_le_mem (l : List ℕ) (a : ℕ) : ∀ x ∈ l, l.foldl min a ≤ x := by
  induction l generalizing a with
  | nil => simp
  | cons y ys ih =>
    intro x hx
    rcases List.mem_cons.mp hx with rfl | h
    · exact le_trans (foldl_min_le_init ys _) (min_le_right a x)
    · exact ih _ x h

/-- Python's `min` bounds every member from below. -/
theorem pyMin_le {l : List ℕ} {m : ℕ} (h : pyMin l = some m) : ∀ x ∈ l, m ≤ x := by
  match l with
  | [] => simp [pyMin] at h
  | a :: as =>
    obtain rfl : as.foldl min a = m := by simpa [pyMin] using h
    intro x hx
    rcases List.mem_cons.mp hx with rfl | hmem
    · exact foldl_min_le_init as x
    · exact foldl_min_le_mem as a x hmem

/-- When every wave is nonempty, the normalisation loop returns the mapped
list, each wave truncated and divided by its own full-length peak. -/
theorem normalizeEach_eq {m : ℕ} {ws : List (List ℚ)} (h : ∀ w ∈ ws, w ≠ []) :
    normalizeEach m ws =
      some (ws.map fun w => (w.take m).map fun s => s / (npMaxAbs w).getD 0) := by
  induction ws with
  | nil => simp [normalizeEach]
  | cons w t ih =>
    obtain ⟨p, hp, _, _⟩ := npMaxAbs_spec (h w (List.mem_cons_self w t))
    rw [normalizeEach, hp, ih (fun u hu => h u (List.mem_cons_of_mem w hu))]
    simp [hp]

/-- A `max` fold commutes with division by a positive constant. -/
theorem foldl_max_div (l : List ℚ) (a p : ℚ) (hp : 0 < p) :
    (l.map fun x => x / p).foldl max (a / p) = (l.foldl max a) / p := by
  induction l generalizing a with
  | nil => simp
  | cons x xs ih =>
    simp only [List.map_cons, List.foldl_cons]
    rw [max_div_div_right (le_of_lt hp), ih]

/-- The peak of a wave divided by a positive constant is the peak divided by
that constant. -/
theorem npMaxAbs_map_div {w : List ℚ} {p : ℚ} (hp : 0 < p) (hne : w ≠ []) :
    npMaxAbs (w.map fun s => s / p) = (npMaxAbs w).map fun q => q / p := by
  match w, hne with
  | x :: xs, _ =>
    have habs : ∀ s : ℚ, |s / p| = |s| / p := fun s => by
      rw [abs_div, abs_of_pos hp]
    simp only [npMaxAbs, List.map_cons, List.map_map]
    have hcomp : (abs ∘ fun s => s / p) = fun s : ℚ => |s| / p := funext fun s => habs s
    rw [hcomp, habs]
    have : (xs.map fun s : ℚ => |s| / p) = (xs.map abs).map fun q => q / p := by
      rw [List.map_map]
      rfl
    rw [this, foldl_max_div _ _ _ hp]
    rfl

/-- C4 (amended): on a nonempty list of waves each holding a nonzero sample,
`normalize_sound_waves` returns one wave per input, each of the minimum
input length with samples in `[-1, 1]` (each truncated wave is divided by
the FULL wave's peak absolute amplitude, computed before truncation); when
all inputs share the same length the peak of every returned wave is exactly
1; in particular `normalize([[2,4,2],[10,-10,5]])` yields two waves of
length 3 with peak 1.0 each. -/
theorem normalize_sound_waves_spec :
    (∀ waves : List (List ℚ), waves ≠ [] → (∀ w ∈ waves, ∃ x ∈ w, x ≠ 0) →
      ∃ m out, pyMin (waves.map List.length) = some m ∧
        normalize_sound_waves waves = some out ∧
        out.length = waves.length ∧
        (∀ ow ∈ out, ow.length = m ∧ ∀ y ∈ ow, |y| ≤ 1) ∧
        ((∀ w ∈ waves, w.length = m) → ∀ ow ∈ out, npMaxAbs ow = some 1)) ∧
    normalize_sound_waves [[2, 4, 2], [10, -10, 5]] =
      some [[1/2, 1, 1/2], [1, -1, 1/2]] := by
  constructor
  · intro waves hne hnz
    have hne' : ∀ w ∈ waves, w ≠ [] := fun w hw => by
      obtain ⟨x, hx, _⟩ := hnz w hw
      exact List.ne_nil_of_mem hx
    obtain ⟨w0, rest, rfl⟩ : ∃ w0 rest, waves = w0 :: rest := by
      match waves, hne with
      | w0 :: rest, _ => exact ⟨w0, rest, rfl⟩
    obtain ⟨m, hm⟩ : ∃ m, pyMin ((w0 :: rest).map List.length) = some m := ⟨_, rfl⟩
    have hmle : ∀ w ∈ w0 :: rest, m ≤ w.length := fun w hw =>
      pyMin_le hm w.length (List.mem_map_of_mem List.length hw)
    refine ⟨m, (w0 :: rest).map fun w => (w.take m).map fun s => s / (npMaxAbs w).getD 0,
      hm, ?_, ?_, ?_, ?_⟩
    · simp only [normalize_sound_waves, hm]
      exact normalizeEach_eq hne'
    · simp
    · intro ow how
      obtain ⟨w, hw, rfl⟩ := List.mem_map.mp how
      obtain ⟨p, hp, hb, _⟩ := npMaxAbs_spec (hne' w hw)
      have hpos : 0 < p := npMaxAbs_pos hp hb (hnz w hw)
      have hgd : (npMaxAbs w).getD 0 = p := by rw [hp]; rfl
      constructor
      · simp [List.length_take, min_eq_left (hmle w hw)]
      · intro y hy
        obtain ⟨s, hs, rfl⟩ := List.mem_map.mp hy
        have hsw : s ∈ w := List.mem_of_mem_take hs
        rw [hgd, abs_div, abs_of_pos hpos]
        exact div_le_one_of_le₀ (hb s hsw) (le_of_lt hpos)
    · intro hlen ow how
      obtain ⟨w, hw, rfl⟩ := List.mem_map.mp how
      obtain ⟨p, hp, hb, _⟩ := npMaxAbs_spec (hne' w hw)
      have hpos : 0 < p := npMaxAbs_pos hp hb (hnz w hw)
      have hgd : (npMaxAbs w).getD 0 = p := by rw [hp]; rfl
      have htake : w.take m = w := by
        rw [← hlen w hw]
        exact List.take_length w
      rw [hgd, htake, npMaxAbs_map_div hpos (hne' w hw), hp]
      simp [div_self (ne_of_gt hpos)]
  · norm_num [normalize_sound_waves, pyMin, normalizeEach, npMaxAbs, max_def, abs]

/-- C4 counterexample: with inputs `[[1], [1, 5]]` of unequal lengths, the
second returned wave is `[1/5]` — its peak absolute amplitude is `1/5`, not
`1.0`, because the divisor is the peak of the full untruncated wave. -/
theorem normalize_peak_counterexample :
    normalize_sound_waves [[1], [1, 5]] = some [[1], [1/5]] ∧
      npMaxAbs [(1 : ℚ)/5] = some (1/5) ∧ ¬ ((1 : ℚ)/5 = 1) := by
  refine ⟨?_, ?_, by norm_num⟩
  · norm_num [normalize_sound_waves, pyMin, normalizeEach, npMaxAbs, max_def, abs]
  · simp [npMaxAbs]

/-- Witness for the amended C4 at the spec's example input. -/
theorem normalize_sound_waves_spec_witness :
    (([[2, 4, 2], [10, -10, 5]] : List (List ℚ)) ≠ []) ∧
      ∃ m out, pyMin (([[2, 4, 2], [10, -10, 5]] : List (List ℚ)).map List.length) = some m ∧
        normalize_sound_waves [[2, 4, 2], [10, -10, 5]] = some out ∧
        out.length = ([[2, 4, 2], [10, -10, 5]] : List (List ℚ)).length ∧
        (∀ ow ∈ out, ow.length = m ∧ ∀ y ∈ ow, |y| ≤ 1) ∧
        ((∀ w ∈ ([[2, 4, 2], [10, -10, 5]] : List (List ℚ)), w.length = m) →
          ∀ ow ∈ out, npMaxAbs ow = some 1) :=
  ⟨by simp,
    normalize_sound_waves_spec.1 [[2, 4, 2], [10, -10, 5]] (by simp) (by
      intro w hw
      rcases List.mem_cons.mp hw with rfl | hw2
      · exact ⟨2, by norm_num, by norm_num⟩
      · rcases List.mem_cons.mp hw2 with rfl | hw3
        · exact ⟨10, by norm_num, by norm_num⟩
        · simp at hw3)⟩

/-- Positivity and octave-monotonicity for one letter form of the table,
given its eight frequencies. -/
theorem baseMono (b : String) (vals : List ℚ)
    (hl : ∀ k : Fin 8, frequencyOf (noteKey b (k : ℕ)) = some (vals.getD (k : ℕ) 0))
    (hpos : 0 < vals.getD 0 0)
    (hstep : ∀ i : Fin 7, vals.getD (i.castSucc : ℕ) 0 < vals.getD (i.succ : ℕ) 0) :
    ∀ m n : Fin 8, m < n → ∃ fm fn, frequencyOf (noteKey b (m : ℕ)) = some fm ∧
      frequencyOf (noteKey b (n : ℕ)) = some fn ∧ 0 < fm ∧ fm < fn := by
  have hSM : StrictMono (fun k : Fin 8 => vals.getD (k : ℕ) 0) :=
    Fin.strictMono_iff_lt_succ.mpr hstep
  intro m n hmn
  exact ⟨vals.getD (m : ℕ) 0, vals.getD (n : ℕ) 0, hl m, hl n,
    lt_of_lt_of_le hpos (hSM.monotone (Fin.zero_le m)), hSM hmn⟩

set_option maxRecDepth 20000 in
/-- C8: for every note letter (with optional sharp) and octaves `m < n` in
`0`-`7`, the looked-up frequencies are positive and strictly increasing with
the octave; `"a4"` and `"a5"` map to 440.0 and 880.0 (within 1e-2 of 440 and
880), the former smaller. -/
theorem noteTable_monotone :
    (∀ b ∈ noteBases, ∀ m n : Fin 8, m < n →
      ∃ fm fn, frequencyOf (noteKey b (m : ℕ)) = some fm ∧
        frequencyOf (noteKey b (n : ℕ)) = some fn ∧ 0 < fm ∧ fm < fn) ∧
    frequencyOf "a4" = some 440.0000 ∧ frequencyOf "a5" = some 880.0000 ∧
    |(440.0000 : ℚ) - 440| ≤ 1/100 ∧ |(880.0000 : ℚ) - 880| ≤ 1/100 ∧
    (440.0000 : ℚ) < 880.0000 := by
  refine ⟨?_, rfl, rfl, by norm_num, by norm_num, by norm_num⟩
  intro b hb
  fin_cases hb
  · exact baseMono _ [27.50000, 55.00000, 110.0000, 220.0000, 440.0000, 880.0000,
      1760.000, 3520.000] (by intro k; fin_cases k <;> rfl)
      (by norm_num [List.getD]) (by intro i; fin_cases i <;> norm_num [List.getD])
  · exact baseMono _ [29.13524, 58.27047, 116.5409, 233.0819, 466.1638, 932.3275,
      1864.655, 3729.310] (by intro k; fin_cases k <;> rfl)
      (by norm_num [List.getD]) (by intro i; fin_cases i <;> norm_num [List.getD])
  · exact baseMono _ [30.86771, 61.73541, 123.4708, 246.9417, 493.8833, 987.7666,
      1975.533, 3951.066] (by intro k; fin_cases k <;> rfl)
      (by norm_num [List.getD]) (by intro i; fin_cases i <;> norm_num [List.getD])
  · exact baseMono _ [32.70320, 65.40639, 130.8128, 261.6256, 523.2511, 1046.502,
      2093.005, 4186.009] (by intro k; fin_cases k <;> rfl)
      (by norm_num [List.getD]) (by intro i; fin_cases i <;> norm_num [List.getD])
  · exact baseMono _ [34.64783, 69.29566, 138.5913, 277.1826, 554.3653, 1108.731,
      2217.461, 4434.922] (by intro k; fin_cases k <;> rfl)
      (by norm_num [List.getD]) (by intro i; fin_cases i <;> norm_num [List.getD])
  · exact baseMono _ [36.70810, 73.41619, 146.8324, 293.6648, 587.3295, 1174.659,
      2349.318, 4698.636] (by intro k; fin_cases k <;> rfl)
      (by norm_num [List.getD]) (by intro i; fin_cases i <;> norm_num [List.getD])
  · exact baseMono _ [38.89087, 77.78175, 155.5635, 311.1270, 622.2540, 1244.508,
      2489.016, 4978.032] (by intro k; fin_cases k <;> rfl)
      (by norm_num [List.getD]) (by intro i; fin_cases i <;> norm_num [List.getD])
  · exact baseMono _ [20.60172, 41.20344, 82.40689, 164.8138, 329.6276, 659.2551,
      1318.510, 2637.020] (by intro k; fin_cases k <;> rfl)
      (by norm_num [List.getD]) (by intro i; fin_cases i <;> norm_num [List.getD])
  · exact baseMono _ [21.82676, 43.65353, 87.30706, 174.6141, 349.2282, 698.4565,
      1396.913, 2793.826] (by intro k; fin_cases k <;> rfl)
      (by norm_num [List.getD]) (by intro i; fin_cases i <;> norm_num [List.getD])
  · exact baseMono _ [23.12465, 46.24930, 92.49861, 184.9972, 369.9944, 739.9888,
      1479.978, 2959.955] (by intro k; fin_cases k <;> rfl)
      (by norm_num [List.getD]) (by intro i; fin_cases i <;> norm_num [List.getD])
  · exact baseMono _ [24.49971, 48.99943, 97.99886, 195.9977, 391.9954, 783.9909,
      1567.982, 3135.963] (by intro k; fin_cases k <;> rfl)
      (by norm_num [List.getD]) (by intro i; fin_cases i <;> norm_num [List.getD])
  · exact baseMono _ [25.95654, 51.91309, 103.8262, 207.6523, 415.3047, 830.6094,
      1661.219, 3322.438] (by intro k; fin_cases k <;> rfl)
      (by norm_num [List.getD]) (by intro i; fin_cases i <;> norm_num [List.getD])

/-- Witness for C8 at letter `"a"`, octaves 4 < 5. -/
theorem noteTable_monotone_witness :
    ("a" ∈ noteBases) ∧ ((4 : Fin 8) < (5 : Fin 8)) ∧
      ∃ fm fn, frequencyOf (noteKey "a" ((4 : Fin 8) : ℕ)) = some fm ∧
        frequencyOf (noteKey "a" ((5 : Fin 8) : ℕ)) = some fn ∧ 0 < fm ∧ fm < fn :=
  ⟨by decide, by decide, noteTable_monotone.1 "a" (by decide) 4 5 (by decide)⟩

/-- The int16 cast of the real number 8192. -/
theorem astype_int16_8192 : astype_int16 (8192 : ℝ) = 8192 := by
  have h1 : truncToZero (8192 : ℝ) = 8192 := by
    rw [truncToZero, if_pos (by norm_num)]
    have : ((8192 : ℝ)) = ((8192 : ℤ) : ℝ) := by norm_num
    rw [this, Int.floor_intCast]
  rw [astype_int16, h1]
  decide

/-- The int16 cast of the real number 0. -/
theorem astype_int16_zero : astype_int16 (0 : ℝ) = 0 := by
  have h1 : truncToZero (0 : ℝ) = 0 := by
    rw [truncToZero, if_pos (le_refl 0), Int.floor_zero]
  rw [astype_int16, h1]
  decide

/-- C10: for every note with nonzero table frequency, the requested duration
does change the samples `create_note` returns even though it never changes
the array length: there are durations `d1 ≠ d2` with different outputs,
because the timeline is `linspace(0, duration, 220500)` and the duration
rescales the effective frequency. -/
theorem create_note_duration_matters (note : String) (f : ℚ)
    (hl : List.lookup note NOTES = some f) (hf : f ≠ 0) :
    ∃ d1 d2 : ℚ, d1 ≠ d2 ∧ create_note note d1 ≠ create_note note d2 := by
  have hf' : (f : ℝ) ≠ 0 := by exact_mod_cast hf
  refine ⟨1 / (4 * f), 0, one_div_ne_zero (by simpa using hf), ?_⟩
  intro heq
  have e1 : create_note note (1 / (4 * f)) =
      some ((get_normed_sin (np_linspace 0 (((1 / (4 * f) : ℚ)) : ℝ) SOUND_ARRAY_LEN) f).map
        astype_int16) := by
    simp [create_note, get_soundwave, hl]
  have e2 : create_note note 0 =
      some ((get_normed_sin (np_linspace 0 (((0 : ℚ)) : ℝ) SOUND_ARRAY_LEN) f).map
        astype_int16) := by
    simp [create_note, get_soundwave, hl]
  rw [e1, e2] at heq
  have hlists := Option.some.inj heq
  simp only [get_normed_sin, np_linspace, List.map_ofFn] at hlists
  have hidx : (220499 : ℕ) < SOUND_ARRAY_LEN := by
    norm_num [SOUND_ARRAY_LEN, SAMPLING_RATE, DURATION_SECONDS]
  have hsample := congrFun (List.ofFn_inj.mp hlists) ⟨220499, hidx⟩
  simp only [Function.comp_apply] at hsample
  have hden : ((SOUND_ARRAY_LEN : ℝ) - 1) = 220499 := by
    norm_num [SOUND_ARRAY_LEN, SAMPLING_RATE, DURATION_SECONDS]
  have hval : (((⟨220499, hidx⟩ : Fin SOUND_ARRAY_LEN) : ℕ) : ℝ) = 220499 := by
    norm_num
  rw [hden, hval] at hsample
  have harg1 : (0 : ℝ) + ((((1 / (4 * f) : ℚ)) : ℝ) - 0) * 220499 / 220499 =
      1 / (4 * (f : ℝ)) := by
    push_cast
    field_simp
    ring
  have harg2 : (0 : ℝ) + ((((0 : ℚ)) : ℝ) - 0) * 220499 / 220499 = 0 := by
    push_cast
    ring
  rw [harg1, harg2] at hsample
  have hsin1 : 2 * Real.pi * (f : ℝ) * (1 / (4 * (f : ℝ))) = Real.pi / 2 := by
    field_simp
    ring
  have hsin2 : 2 * Real.pi * (f : ℝ) * 0 = 0 := by ring
  rw [hsin1, hsin2, Real.sin_pi_div_two, Real.sin_zero, mul_one, mul_zero] at hsample
  have hamp : ((MAX_AMPLITUDE : ℕ) : ℝ) = 8192 := by norm_num [MAX_AMPLITUDE]
  rw [hamp] at hsample
  rw [astype_int16_8192, astype_int16_zero] at hsample
  exact absurd hsample (by decide)

set_option maxRecDepth 8000 in
/-- Witness for C10 at note `"a4"` (frequency 440). -/
theorem create_note_duration_matters_witness :
    List.lookup "a4" NOTES = some 440.0000 ∧ ¬ ((440.0000 : ℚ) = 0) ∧
      ∃ d1 d2 : ℚ, d1 ≠ d2 ∧ create_note "a4" d1 ≠ create_note "a4" d2 :=
  ⟨rfl, by norm_num,
    create_note_duration_matters "a4" 440.0000 rfl (by norm_num)⟩
